import Mathlib

/-!
Verification of the AppleScript bridge of `agent-executive-assistant`.

The source builds AppleScript texts by string interpolation, runs them with
`osascript`, and decodes the flat text output by splitting on the record
delimiter `:::` and the field delimiter `|||` (list-valued fields use `,`).
Text is modelled as `List Char` (`JStr`); JavaScript `String.prototype.split`
with a nonempty separator is modelled by a fuel-based scanner `splitFuel`
that consumes the leftmost occurrence of the separator, exactly as JS does.
-/

namespace AssistantBridge

/-- Strings of the JavaScript/AppleScript world, modelled as character lists. -/
abbrev JStr := List Char

/-- Character list of a Lean string literal. -/
def lit (s : String) : JStr := s.data

/-- Field delimiter of the wire format (the source's `|||`). -/
def fieldSep : JStr := ['|', '|', '|']

/-- Record delimiter of the wire format (the source's `:::`). -/
def recSep : JStr := [':', ':', ':']

/-- List delimiter used inside multi-valued fields (the source's `,`). -/
def listSep : JStr := [',']

example : fieldSep = lit "|||" := rfl
example : recSep = lit ":::" := rfl

/-- Scanner behind `jsSplit`: walks the text, and each time the separator
`c :: cs` is the text's current head sequence it cuts there and drops the
separator, as JavaScript `split` does.  `fuel` only forces structural
recursion; any `fuel ≥` the text length gives the true result. -/
def splitFuel (c : Char) (cs : List Char) : Nat → JStr → List Char → List JStr
  | _, [], acc => [acc.reverse]
  | 0, s, acc => [acc.reverse ++ s]
  | fuel + 1, x :: xs, acc =>
    if (c :: cs).isPrefixOf (x :: xs) then
      acc.reverse :: splitFuel c cs fuel (xs.drop cs.length) []
    else
      splitFuel c cs fuel xs (x :: acc)

/-- JavaScript `s.split(sep)` for a nonempty separator (the only case the
source uses; splits on `:::`, `|||`, `,` and `, `). -/
def jsSplit (s sep : JStr) : List JStr :=
  match sep with
  | [] => [s]
  | c :: cs => splitFuel c cs s.length s []

/-- Plain separator interleaving: `joinSep sep [a, b, c] = a ++ sep ++ b ++ sep ++ c`.
This is what the AppleScript templates produce when they concatenate a fixed
number of fields with explicit `& "|||" &` pieces. -/
def joinSep (sep : JStr) : List JStr → JStr
  | [] => []
  | [f] => f
  | f :: fs => f ++ sep ++ joinSep sep fs

/-- The accumulation loop the AppleScript templates use for batches and for
list-valued fields: `if out is not "" then set out to out & sep`, then
`set out to out & item`. -/
def accJoin (sep : JStr) (items : List JStr) : JStr :=
  items.foldl (fun acc it => (if acc.isEmpty then acc else acc ++ sep) ++ it) []

/-- Substring test (JavaScript `String.prototype.includes`, and the occurrence
relation behind AppleScript `contains`). -/
def infixB (n : JStr) : JStr → Bool
  | [] => n.isEmpty
  | x :: xs => n.isPrefixOf (x :: xs) || infixB n xs

/-- Lower-casing of a character list; AppleScript text comparison ignores
case by default, which is modelled by comparing lower-cased lists. -/
def lcStr (s : JStr) : JStr := s.map Char.toLower

/-- AppleScript `a is b` on text under the default (case-insensitive) rules. -/
def asEq (a b : JStr) : Bool := lcStr a == lcStr b

/-- AppleScript `a contains b` on text under the default rules. -/
def asContainsB (a b : JStr) : Bool := infixB (lcStr b) (lcStr a)

/-- JavaScript whitespace test used by `trim`. -/
def isWhite (ch : Char) : Bool := ch.isWhitespace

/-- JavaScript `String.prototype.trim` (the source applies it to stdout). -/
def jsTrim (s : JStr) : JStr :=
  ((s.dropWhile isWhite).reverse.dropWhile isWhite).reverse

example : jsSplit (lit "a:::b:::c") recSep = [lit "a", lit "b", lit "c"] := by decide
example : jsSplit [] recSep = [[]] := by decide
example : jsSplit (lit "a::::b") recSep = [lit "a", lit ":b"] := by decide
example : accJoin recSep [lit "a", lit "b"] = lit "a:::b" := by decide
example : infixB (lit "not found") (lit "Contact not found: X") = true := by decide

/-! ## Basic lemmas about the split scanner -/

theorem splitFuel_fuel_irrelevant (c : Char) (cs : List Char) :
    ∀ f1 f2 s acc, s.length ≤ f1 → s.length ≤ f2 →
      splitFuel c cs f1 s acc = splitFuel c cs f2 s acc := by
  intro f1
  induction f1 with
  | zero =>
    intro f2 s acc h1 _
    have : s = [] := List.length_eq_zero.mp (Nat.le_zero.mp h1)
    subst this
    cases f2 <;> rfl
  | succ f1 ih =>
    intro f2 s acc h1 h2
    cases s with
    | nil => cases f2 <;> rfl
    | cons x xs =>
      cases f2 with
      | zero => exact absurd h2 (by simp)
      | succ f2 =>
        have hxs1 : xs.length ≤ f1 := by simp at h1; omega
        have hxs2 : xs.length ≤ f2 := by simp at h2; omega
        simp only [splitFuel]
        cases hb : (c :: cs).isPrefixOf (x :: xs) with
        | true =>
          simp only [if_true]
          have hlen1 : (xs.drop cs.length).length ≤ f1 := by
            have := List.length_drop cs.length xs
            omega
          have hlen2 : (xs.drop cs.length).length ≤ f2 := by
            have := List.length_drop cs.length xs
            omega
          rw [ih f2 _ _ hlen1 hlen2]
        | false =>
          simp only [Bool.false_eq_true, if_false]
          rw [ih f2 _ _ hxs1 hxs2]

theorem isPrefixOf_ne_head {c x : Char} (cs xs : List Char) (h : x ≠ c) :
    (c :: cs).isPrefixOf (x :: xs) = false := by
  simp [List.isPrefixOf, BEq.beq]
  intro hc
  exact absurd hc.symm h

theorem splitFuel_no_sep (c : Char) (cs : List Char) :
    ∀ fuel s acc, s.length ≤ fuel → (∀ x ∈ s, x ≠ c) →
      splitFuel c cs fuel s acc = [acc.reverse ++ s] := by
  intro fuel
  induction fuel with
  | zero =>
    intro s acc h1 _
    have : s = [] := List.length_eq_zero.mp (Nat.le_zero.mp h1)
    subst this
    simp [splitFuel]
  | succ fuel ih =>
    intro s acc h1 hs
    cases s with
    | nil => simp [splitFuel]
    | cons x xs =>
      have hx : x ≠ c := hs x (by simp)
      simp only [splitFuel, isPrefixOf_ne_head cs xs hx, Bool.false_eq_true, if_false]
      rw [ih xs (x :: acc) (by simp at h1; omega) (fun y hy => hs y (by simp [hy]))]
      simp

theorem isPrefixOf_append_self (l r : List Char) : l.isPrefixOf (l ++ r) = true := by
  induction l with
  | nil => simp [List.isPrefixOf]
  | cons a as ih => simp [List.isPrefixOf, ih]

theorem splitFuel_chunk (c : Char) (cs : List Char) :
    ∀ s rest acc fuel, (s ++ (c :: cs) ++ rest).length ≤ fuel → (∀ x ∈ s, x ≠ c) →
      splitFuel c cs fuel (s ++ (c :: cs) ++ rest) acc =
        (acc.reverse ++ s) :: splitFuel c cs rest.length rest [] := by
  intro s
  induction s with
  | nil =>
    intro rest acc fuel hfuel _
    cases fuel with
    | zero => exact absurd hfuel (by simp)
    | succ fuel =>
      have hshape : ([] : List Char) ++ (c :: cs) ++ rest = c :: (cs ++ rest) := by simp
      rw [hshape]
      simp only [splitFuel]
      rw [show (c :: cs).isPrefixOf (c :: (cs ++ rest)) = true from
        isPrefixOf_append_self (c :: cs) rest]
      simp only [if_true, List.drop_left]
      rw [splitFuel_fuel_irrelevant c cs fuel rest.length rest []
        (by simp at hfuel; omega) (Nat.le_refl _)]
      simp
  | cons x xs ih =>
    intro rest acc fuel hfuel hs
    cases fuel with
    | zero => exact absurd hfuel (by simp)
    | succ fuel =>
      have hx : x ≠ c := hs x (by simp)
      have hshape : (x :: xs) ++ (c :: cs) ++ rest = x :: (xs ++ (c :: cs) ++ rest) := by
        simp [List.append_assoc]
      rw [hshape]
      simp only [splitFuel]
      rw [isPrefixOf_ne_head (c := c) (x := x) cs (xs ++ (c :: cs) ++ rest) hx]
      simp only [Bool.false_eq_true, if_false]
      have := ih rest (x :: acc) fuel (by simp at hfuel ⊢; omega)
        (fun y hy => hs y (by simp [hy]))
      rw [this]
      simp

/-! ## Join lemmas -/

theorem joinSep_cons (sep : JStr) (f : JStr) (fs : List JStr) :
    joinSep sep (f :: fs) = f ++ (fs.map (fun g => sep ++ g)).flatten := by
  induction fs generalizing f with
  | nil => simp [joinSep]
  | cons g gs ih =>
    rw [show joinSep sep (f :: g :: gs) = f ++ sep ++ joinSep sep (g :: gs) from rfl, ih g]
    simp [List.append_assoc]

theorem accJoin_cons (sep : JStr) (i : JStr) (is : List JStr) (hi : i ≠ []) :
    accJoin sep (i :: is) = joinSep sep (i :: is) := by
  have step : ∀ (items : List JStr) (acc : JStr), acc ≠ [] →
      items.foldl (fun acc it => (if acc.isEmpty then acc else acc ++ sep) ++ it) acc =
        acc ++ (items.map (fun g => sep ++ g)).flatten := by
    intro items
    induction items with
    | nil => intro acc _; simp
    | cons j js ih =>
      intro acc hacc
      have hne : acc.isEmpty = false := by
        cases acc with
        | nil => exact absurd rfl hacc
        | cons a as => rfl
      simp only [List.foldl_cons, hne, Bool.false_eq_true, if_false]
      rw [ih (acc ++ sep ++ j) (by simp [hacc])]
      simp [List.append_assoc]
  have h0 : accJoin sep (i :: is) =
      is.foldl (fun acc it => (if acc.isEmpty then acc else acc ++ sep) ++ it) i := by
    simp [accJoin]
  rw [h0, step is i hi, joinSep_cons]

theorem mem_joinSep {x : Char} {sep : JStr} {items : List JStr}
    (h : x ∈ joinSep sep items) : x ∈ sep ∨ ∃ it ∈ items, x ∈ it := by
  induction items with
  | nil => simp [joinSep] at h
  | cons f fs ih =>
    rw [joinSep_cons] at h
    rcases List.mem_append.mp h with hf | hj
    · exact Or.inr ⟨f, by simp, hf⟩
    · rcases List.mem_flatten.mp hj with ⟨l, hl, hx⟩
      rcases List.mem_map.mp hl with ⟨g, hg, rfl⟩
      rcases List.mem_append.mp hx with hs | hgx
      · exact Or.inl hs
      · exact Or.inr ⟨g, by simp [hg], hgx⟩

theorem jsSplit_joinSep (c : Char) (cs : List Char) (items : List JStr)
    (hne : items ≠ []) (hchar : ∀ it ∈ items, ∀ x ∈ it, x ≠ c) :
    jsSplit (joinSep (c :: cs) items) (c :: cs) = items := by
  induction items with
  | nil => exact absurd rfl hne
  | cons f fs ih =>
    cases fs with
    | nil =>
      show splitFuel c cs (joinSep (c :: cs) [f]).length (joinSep (c :: cs) [f]) [] = [f]
      have : joinSep (c :: cs) [f] = f := rfl
      rw [this, splitFuel_no_sep c cs f.length f [] (Nat.le_refl _)
        (fun x hx => hchar f (by simp) x hx)]
      simp
    | cons g gs =>
      show splitFuel c cs _ (joinSep (c :: cs) (f :: g :: gs)) [] = f :: g :: gs
      have hexp : joinSep (c :: cs) (f :: g :: gs) = f ++ (c :: cs) ++ joinSep (c :: cs) (g :: gs) :=
        rfl
      rw [hexp, splitFuel_chunk c cs f (joinSep (c :: cs) (g :: gs)) [] _ (Nat.le_refl _)
        (fun x hx => hchar f (by simp) x hx)]
      have ihg := ih (by simp) (fun it hit x hx => hchar it (by simp [hit]) x hx)
      have ihg2 : splitFuel c cs (joinSep (c :: cs) (g :: gs)).length
          (joinSep (c :: cs) (g :: gs)) [] = g :: gs := ihg
      rw [ihg2]
      simp

/-! ## The record codec

The scripts emit each record as its fields joined by `|||` (a fixed
concatenation `f1 & "|||" & f2 & ...`), and join encoded records with the
`:::` accumulation loop.  The adapters decode by splitting on `:::` and then
each chunk on `|||`. -/

/-- Encoding of one record: fields joined by the field delimiter, as the
scripts' fixed concatenation produces. -/
def encodeRecord (fields : List JStr) : JStr := joinSep fieldSep fields

example : encodeRecord [lit "a", lit "b", lit "c", lit "d"] =
    lit "a" ++ lit "|||" ++ lit "b" ++ lit "|||" ++ lit "c" ++ lit "|||" ++ lit "d" := by decide

/-- Encoding of a batch: encoded records joined by the scripts' record
accumulation loop. -/
def encodeBatch (records : List (List JStr)) : JStr :=
  accJoin recSep (records.map encodeRecord)

/-- Raw decode of a batch, exactly as the adapters do it:
`result.split(":::")` and then each chunk `.split("|||")`. -/
def decodeBatchRaw (s : JStr) : List (List JStr) :=
  (jsSplit s recSep).map (fun chunk => jsSplit chunk fieldSep)

theorem encodeRecord_ne_nil (r : List JStr) (hr : r ≠ []) (hf : ∃ f ∈ r, f ≠ []) :
    encodeRecord r ≠ [] := by
  match r, hr with
  | [f], _ =>
    have : encodeRecord [f] = f := rfl
    rw [this]
    rcases hf with ⟨g, hg, hgne⟩
    have : g = f := by simpa using hg
    exact this ▸ hgne
  | f :: g :: gs, _ =>
    have : encodeRecord (f :: g :: gs) = f ++ fieldSep ++ joinSep fieldSep (g :: gs) := rfl
    rw [this]
    intro hcontra
    have := congrArg List.length hcontra
    simp [fieldSep] at this

theorem mem_encodeRecord_bar {x : Char} {r : List JStr}
    (hx : x ∈ encodeRecord r) : x ∈ fieldSep ∨ ∃ f ∈ r, x ∈ f :=
  mem_joinSep hx

/-- Claim C1 as stated is false: fields free of the delimiter substrings can
still break the round trip when a field boundary completes a delimiter, and
the empty batch decodes to a one-record batch.  The fields `"a:"` and `"b"`
contain none of `|||`, `:::` or `,`, yet the decode returns `["a", ":b"]`. -/
theorem claim_C1_counterexample :
    decodeBatchRaw (encodeBatch [[lit "a:"], [lit "b"]]) = [[lit "a"], [lit ":b"]] ∧
    decodeBatchRaw (encodeBatch [[lit "a:"], [lit "b"]]) ≠ [[lit "a:"], [lit "b"]] ∧
    decodeBatchRaw (encodeBatch []) ≠ [] := by decide

/-- Claim C1, amended: the round trip `decodeBatchRaw ∘ encodeBatch` is the
identity on every nonempty batch of records that each have at least one
field and at least one nonempty field, whose field values contain none of
the delimiter characters `|`, `:`, `,`. -/
theorem claim_C1_roundtrip (records : List (List JStr))
    (hne : records ≠ [])
    (hrec : ∀ r ∈ records, r ≠ [])
    (hchar : ∀ r ∈ records, ∀ f ∈ r, ∀ x ∈ f, x ≠ '|' ∧ x ≠ ':' ∧ x ≠ ',')
    (hfield : ∀ r ∈ records, ∃ f ∈ r, f ≠ []) :
    decodeBatchRaw (encodeBatch records) = records := by
  have hcolon : ∀ it ∈ records.map encodeRecord, ∀ x ∈ it, x ≠ ':' := by
    intro it hit x hx
    rcases List.mem_map.mp hit with ⟨r, hr, rfl⟩
    rcases mem_encodeRecord_bar hx with hbar | ⟨f, hf, hxf⟩
    · simp [fieldSep] at hbar
      subst hbar
      decide
    · exact ((hchar r hr f hf x hxf).2).1
  match records, hne with
  | r0 :: rs, _ =>
    have hmap : (r0 :: rs).map encodeRecord = encodeRecord r0 :: rs.map encodeRecord := rfl
    have hhead : encodeRecord r0 ≠ [] :=
      encodeRecord_ne_nil r0 (hrec r0 (by simp)) (hfield r0 (by simp))
    have hjoin : encodeBatch (r0 :: rs) = joinSep recSep ((r0 :: rs).map encodeRecord) := by
      rw [encodeBatch, hmap, accJoin_cons recSep _ _ hhead]
    have hsplit : jsSplit (encodeBatch (r0 :: rs)) recSep = (r0 :: rs).map encodeRecord := by
      rw [hjoin]
      exact jsSplit_joinSep ':' [':', ':'] _ (by simp) (by simpa [recSep] using hcolon)
    have hchunk : ∀ r ∈ r0 :: rs, jsSplit (encodeRecord r) fieldSep = r := by
      intro r hr
      exact jsSplit_joinSep '|' ['|', '|'] r (hrec r hr)
        (fun f hf x hx => ((hchar r hr f hf x hx).1))
    rw [decodeBatchRaw, hsplit, List.map_map]
    have : ∀ r ∈ r0 :: rs,
        ((fun chunk => jsSplit chunk fieldSep) ∘ encodeRecord) r = id r := by
      intro r hr
      simpa using hchunk r hr
    rw [List.map_congr_left this, List.map_id]

/-- Witness for `claim_C1_roundtrip` at a concrete batch. -/
theorem claim_C1_roundtrip_witness :
    decodeBatchRaw (encodeBatch [[lit "Standup", lit "Mon"], [lit "Review"]]) =
      [[lit "Standup", lit "Mon"], [lit "Review"]] :=
  claim_C1_roundtrip _ (by decide) (by decide) (by decide) (by decide)

/-! ## Process executor

`executeAppleScript` awaits `osascript`; on success it returns the trimmed
stdout, on a spawn error or non-zero exit the `catch` block logs and returns
`null`.  The outcome of the child process is the model's input. -/

/-- Outcome of one `osascript` child process. -/
inductive ExecOutcome where
  | success (stdout : JStr) (stderr : JStr)
  | failure (message : JStr)

/-- The source's `executeAppleScript`: trimmed stdout on success, `null`
(modelled `none`) on process failure.  stderr is only logged. -/
def executeAppleScript : ExecOutcome → Option JStr
  | .success out _ => some (jsTrim out)
  | .failure _ => none

/-! ## Typed decode layer of the adapters

JavaScript array destructuring yields `undefined` for missing positions, so
each decoded field is an `Option JStr` with `none` playing `undefined`. -/

/-- Decoded calendar event (`{ summary, startDate, endDate, calendar }`). -/
structure CalendarEvent where
  summary : Option JStr
  startDate : Option JStr
  endDate : Option JStr
  calendar : Option JStr
deriving DecidableEq

/-- Decoded event detail (`getEventDetails` destructures seven positions). -/
structure EventDetail where
  summary : Option JStr
  startDate : Option JStr
  endDate : Option JStr
  calendar : Option JStr
  description : Option JStr
  location : Option JStr
  url : Option JStr
deriving DecidableEq

/-- Decoded note (`{ id, name, body }`). -/
structure Note where
  id : Option JStr
  name : Option JStr
  body : Option JStr
deriving DecidableEq

/-- Decoded contact record. -/
structure Contact where
  id : Option JStr
  name : Option JStr
  emails : List JStr
  phones : List JStr
  organization : Option JStr
  birthday : Option JStr
deriving DecidableEq

/-- Destructuring `const [a, b, ...] = parts`: position `i` or `undefined`. -/
def part (parts : List JStr) (i : Nat) : Option JStr := parts[i]?

/-- The source's `emailsStr ? emailsStr.split(",") : []` (undefined and the
empty string are both falsy). -/
def splitListField : Option JStr → List JStr
  | some s => if s.isEmpty then [] else jsSplit s listSep
  | none => []

/-- The source's `organization || undefined`. -/
def orUndefined : Option JStr → Option JStr
  | some s => if s.isEmpty then none else some s
  | none => none

def decodeEventParts (parts : List JStr) : CalendarEvent :=
  { summary := part parts 0, startDate := part parts 1,
    endDate := part parts 2, calendar := part parts 3 }

def decodeEventChunk (chunk : JStr) : CalendarEvent :=
  decodeEventParts (jsSplit chunk fieldSep)

def decodeEventDetailParts (parts : List JStr) : EventDetail :=
  { summary := part parts 0, startDate := part parts 1, endDate := part parts 2,
    calendar := part parts 3, description := part parts 4,
    location := part parts 5, url := part parts 6 }

def decodeNoteParts (parts : List JStr) : Note :=
  { id := part parts 0, name := part parts 1, body := part parts 2 }

def decodeNoteChunk (chunk : JStr) : Note :=
  decodeNoteParts (jsSplit chunk fieldSep)

def decodeContactParts (parts : List JStr) : Contact :=
  { id := part parts 0, name := part parts 1,
    emails := splitListField (part parts 2), phones := splitListField (part parts 3),
    organization := orUndefined (part parts 4), birthday := orUndefined (part parts 5) }

def decodeContactChunk (chunk : JStr) : Contact :=
  decodeContactParts (jsSplit chunk fieldSep)

/-! ## Result shaping of each adapter operation

Each method runs its script and post-processes the `string | null` result;
`if (result)` treats both `null` and the empty string as falsy. -/

def listCalendarsResult (r : Option JStr) : Option (List JStr) :=
  match r with
  | none => none
  | some s => if s.isEmpty then none else some (jsSplit s (lit ", "))

def listEventsResult (r : Option JStr) : Option (List CalendarEvent) :=
  match r with
  | none => none
  | some s => if s.isEmpty then none else some ((jsSplit s recSep).map decodeEventChunk)

def searchEventsResult (r : Option JStr) : Option (List CalendarEvent) :=
  match r with
  | none => none
  | some s => if s.isEmpty then none else some ((jsSplit s recSep).map decodeEventChunk)

def getEventDetailsResult (r : Option JStr) : Option EventDetail :=
  match r with
  | none => none
  | some s => if s.isEmpty then none else some (decodeEventDetailParts (jsSplit s fieldSep))

def listNotesResult (r : Option JStr) : Option (List Note) :=
  match r with
  | none => none
  | some s => if s.isEmpty then none else some ((jsSplit s recSep).map decodeNoteChunk)

def searchNotesResult (r : Option JStr) : Option (List Note) :=
  match r with
  | none => none
  | some s => if s.isEmpty then none else some ((jsSplit s recSep).map decodeNoteChunk)

def listContactsResult (r : Option JStr) : Option (List Contact) :=
  match r with
  | none => none
  | some s => if s.isEmpty then none else some ((jsSplit s recSep).map decodeContactChunk)

def searchContactsResult (r : Option JStr) : Option (List Contact) :=
  match r with
  | none => none
  | some s => if s.isEmpty then none else some ((jsSplit s recSep).map decodeContactChunk)

def getContactResult (r : Option JStr) : Option Contact :=
  match r with
  | none => none
  | some s =>
    if !s.isEmpty && !(infixB (lit "Contact not found") s) then
      some (decodeContactParts (jsSplit s fieldSep))
    else
      none

/-! ## Adapter operations as outcome-to-result pipelines -/

def listCalendarsRun (oc : ExecOutcome) : Option (List JStr) :=
  listCalendarsResult (executeAppleScript oc)

def listEventsRun (oc : ExecOutcome) : Option (List CalendarEvent) :=
  listEventsResult (executeAppleScript oc)

def searchEventsRun (oc : ExecOutcome) : Option (List CalendarEvent) :=
  searchEventsResult (executeAppleScript oc)

def getEventDetailsRun (oc : ExecOutcome) : Option EventDetail :=
  getEventDetailsResult (executeAppleScript oc)

/-- `createEvent` returns the executor's `string | null` result unchanged. -/
def createEventRun (oc : ExecOutcome) : Option JStr := executeAppleScript oc

/-- `deleteEvent` returns the executor's result unchanged. -/
def deleteEventRun (oc : ExecOutcome) : Option JStr := executeAppleScript oc

def listNotesRun (oc : ExecOutcome) : Option (List Note) :=
  listNotesResult (executeAppleScript oc)

def searchNotesRun (oc : ExecOutcome) : Option (List Note) :=
  searchNotesResult (executeAppleScript oc)

/-- `createNote` returns the executor's result unchanged. -/
def createNoteRun (oc : ExecOutcome) : Option JStr := executeAppleScript oc

/-- `editNote` returns the executor's result unchanged. -/
def editNoteRun (oc : ExecOutcome) : Option JStr := executeAppleScript oc

/-- `getNoteContent` returns the executor's result unchanged. -/
def getNoteContentRun (oc : ExecOutcome) : Option JStr := executeAppleScript oc

def listContactsRun (oc : ExecOutcome) : Option (List Contact) :=
  listContactsResult (executeAppleScript oc)

def searchContactsRun (oc : ExecOutcome) : Option (List Contact) :=
  searchContactsResult (executeAppleScript oc)

def getContactRun (oc : ExecOutcome) : Option Contact :=
  getContactResult (executeAppleScript oc)

/-- `createContact` returns the executor's result unchanged. -/
def createContactRun (oc : ExecOutcome) : Option JStr := executeAppleScript oc

/-- `deleteContact` returns the executor's result unchanged. -/
def deleteContactRun (oc : ExecOutcome) : Option JStr := executeAppleScript oc

/-- Claim C2 as stated is false at its first conjunct: the raw decode of the
empty output text is a one-element batch holding a single empty record, not
an empty sequence. -/
theorem claim_C2_counterexample :
    decodeBatchRaw [] = [[[]]] ∧ decodeBatchRaw [] ≠ [] := by decide

/-- Claim C2, amended: the raw split of the empty output text would be the
one-element batch `[[""]]`, but every adapter operation first checks
truthiness of the output, so an empty or absent script output is mapped to
`null` (`none`) by all six batch operations and never to that one-element
batch. -/
theorem claim_C2_empty_law :
    decodeBatchRaw [] = [[[]]] ∧
    (∀ oc : ExecOutcome, executeAppleScript oc = some [] ∨ executeAppleScript oc = none →
      listEventsRun oc = none ∧ searchEventsRun oc = none ∧
      listNotesRun oc = none ∧ searchNotesRun oc = none ∧
      listContactsRun oc = none ∧ searchContactsRun oc = none) := by
  constructor
  · decide
  · intro oc hoc
    rcases hoc with h | h <;>
      simp [listEventsRun, searchEventsRun, listNotesRun, searchNotesRun,
        listContactsRun, searchContactsRun, listEventsResult, searchEventsResult,
        listNotesResult, searchNotesResult, listContactsResult, searchContactsResult, h]

/-- Witness for `claim_C2_empty_law`: a successful run whose stdout is empty. -/
theorem claim_C2_empty_law_witness :
    listEventsRun (.success [] []) = none ∧ searchEventsRun (.success [] []) = none ∧
    listNotesRun (.success [] []) = none ∧ searchNotesRun (.success [] []) = none ∧
    listContactsRun (.success [] []) = none ∧ searchContactsRun (.success [] []) = none :=
  claim_C2_empty_law.2 (.success [] []) (Or.inl rfl)

/-- Claim C3: a spawn error or non-zero exit makes `executeAppleScript`
return `null`, and then every adapter operation returns `null` — the
functions below are total, so nothing escapes the adapter boundary. -/
theorem claim_C3_process_failure (msg : JStr) :
    executeAppleScript (.failure msg) = none ∧
    listCalendarsRun (.failure msg) = none ∧
    listEventsRun (.failure msg) = none ∧
    searchEventsRun (.failure msg) = none ∧
    createEventRun (.failure msg) = none ∧
    deleteEventRun (.failure msg) = none ∧
    getEventDetailsRun (.failure msg) = none ∧
    listNotesRun (.failure msg) = none ∧
    searchNotesRun (.failure msg) = none ∧
    createNoteRun (.failure msg) = none ∧
    editNoteRun (.failure msg) = none ∧
    getNoteContentRun (.failure msg) = none ∧
    listContactsRun (.failure msg) = none ∧
    searchContactsRun (.failure msg) = none ∧
    getContactRun (.failure msg) = none ∧
    createContactRun (.failure msg) = none ∧
    deleteContactRun (.failure msg) = none := by
  refine ⟨rfl, rfl, rfl, rfl, rfl, rfl, rfl, rfl, rfl, rfl, rfl, rfl, rfl, rfl, rfl, rfl, rfl⟩

/-! ## AppleScript-side state and loop semantics

The scripts iterate over the external application's items; the items are the
model's state.  AppleScript dates support arithmetic in seconds (`days` is
the constant 86400), so dates are `Int` seconds; their textual rendering
(`... as string`) is an uninterpreted parameter `dateToStr`. -/

/-- An event of the external Calendar application. -/
structure ASEvent where
  summary : JStr
  startDate : Int
  endDate : Int
  description : JStr
  location : JStr
  url : JStr
deriving DecidableEq

/-- A note of the external Notes application. -/
structure ASNote where
  id : JStr
  name : JStr
  body : JStr
deriving DecidableEq

/-- A person of the external Contacts application; `birthday = none` models
a person with no birth date (the script's `on error` path appends `""`). -/
structure ASContact where
  id : JStr
  name : JStr
  emails : List JStr
  phones : List JStr
  organization : JStr
  birthday : Option JStr
deriving DecidableEq

/-- Selection of `deleteEvent`: `if summary of e is "${eventTitle}"`. -/
def deleteEventMatch (eventTitle : JStr) (e : ASEvent) : Bool := asEq e.summary eventTitle

/-- Selection of `getEventDetails`: `if summary of e is "${eventTitle}"`. -/
def getEventDetailsMatch (eventTitle : JStr) (e : ASEvent) : Bool := asEq e.summary eventTitle

/-- Filter of `searchEvents`:
`(summary of e contains "${query}") or (description of e contains "${query}")`. -/
def searchEventsMatch (query : JStr) (e : ASEvent) : Bool :=
  asContainsB e.summary query || asContainsB e.description query

/-- Filter of `searchNotes`:
`(name of n contains "${query}") or (body of n contains "${query}")`. -/
def searchNotesMatch (query : JStr) (n : ASNote) : Bool :=
  asContainsB n.name query || asContainsB n.body query

/-- Selection of `editNote`: `if name of n is "${noteTitle}"`. -/
def editNoteMatch (noteTitle : JStr) (n : ASNote) : Bool := asEq n.name noteTitle

/-- Selection of `getNoteContent`: `if name of n is "${noteTitle}"`. -/
def getNoteContentMatch (noteTitle : JStr) (n : ASNote) : Bool := asEq n.name noteTitle

/-- Filter of `searchContacts`:
`(name of p contains "${query}") or (organization of p contains "${query}")`. -/
def searchContactsMatch (query : JStr) (p : ASContact) : Bool :=
  asContainsB p.name query || asContainsB p.organization query

/-- Selection of `getContact`: `if name of p is "${contactName}"`. -/
def getContactMatch (contactName : JStr) (p : ASContact) : Bool := asEq p.name contactName

/-- Selection of `deleteContact`: `if name of p is "${contactName}"`. -/
def deleteContactMatch (contactName : JStr) (p : ASContact) : Bool := asEq p.name contactName

/-- The AppleScript constant `days`, in seconds. -/
def secondsPerDay : Int := 86400

/-- The `whose` clause of `listEvents`/`searchEvents`:
`start date ≥ startDate and start date ≤ targetDate` with
`targetDate = startDate + (${days} * days)`. -/
def inWindow (now days : Int) (e : ASEvent) : Bool :=
  decide (now ≤ e.startDate) && decide (e.startDate ≤ now + days * secondsPerDay)

def filterWindow (now days : Int) (events : List ASEvent) : List ASEvent :=
  events.filter (inWindow now days)

/-- Signature default of `listEvents` (`days = 7`); the tool schema declares
the same default. -/
def listEventsDefaultDays : Int := 7

/-- Signature default of `searchEvents` (`days = 90`); the tool schema
declares the same default. -/
def searchEventsDefaultDays : Int := 90

/-! ## Script outputs -/

def eventLine (dateToStr : Int → JStr) (calendarName : JStr) (e : ASEvent) : JStr :=
  joinSep fieldSep [e.summary, dateToStr e.startDate, dateToStr e.endDate, calendarName]

def listEventsOutput (dateToStr : Int → JStr) (now : Int) (events : List ASEvent)
    (calendarName : JStr) (days : Int) : JStr :=
  accJoin recSep ((filterWindow now days events).map (eventLine dateToStr calendarName))

def listEventsOutputDefault (dateToStr : Int → JStr) (now : Int) (events : List ASEvent)
    (calendarName : JStr) : JStr :=
  listEventsOutput dateToStr now events calendarName listEventsDefaultDays

def searchEventsOutput (dateToStr : Int → JStr) (now : Int) (events : List ASEvent)
    (query calendarName : JStr) (days : Int) : JStr :=
  accJoin recSep
    (((filterWindow now days events).filter (searchEventsMatch query)).map
      (eventLine dateToStr calendarName))

def searchEventsOutputDefault (dateToStr : Int → JStr) (now : Int) (events : List ASEvent)
    (query calendarName : JStr) : JStr :=
  searchEventsOutput dateToStr now events query calendarName searchEventsDefaultDays

def deleteEventOutput (events : List ASEvent) (eventTitle : JStr) : JStr :=
  match events.find? (deleteEventMatch eventTitle) with
  | some _ => lit "Event deleted: " ++ eventTitle
  | none => lit "Event not found: " ++ eventTitle

def getEventDetailsOutput (dateToStr : Int → JStr) (events : List ASEvent)
    (calendarName eventTitle : JStr) : JStr :=
  match events.find? (getEventDetailsMatch eventTitle) with
  | some e => joinSep fieldSep [e.summary, dateToStr e.startDate, dateToStr e.endDate,
      calendarName, e.description, e.location, e.url]
  | none => []

def noteLine (n : ASNote) : JStr := joinSep fieldSep [n.id, n.name, n.body]

def listNotesOutput (notes : List ASNote) : JStr := accJoin recSep (notes.map noteLine)

def searchNotesOutput (query : JStr) (notes : List ASNote) : JStr :=
  accJoin recSep ((notes.filter (searchNotesMatch query)).map noteLine)

def getNoteContentOutput (notes : List ASNote) (noteTitle : JStr) : JStr :=
  match notes.find? (getNoteContentMatch noteTitle) with
  | some n => n.body
  | none => lit "Note not found: " ++ noteTitle

def editNoteOutput (notes : List ASNote) (noteTitle : JStr) : JStr :=
  match notes.find? (editNoteMatch noteTitle) with
  | some _ => lit "Note updated: " ++ noteTitle
  | none => lit "Note not found: " ++ noteTitle

def contactLine (p : ASContact) : JStr :=
  joinSep fieldSep [p.id, p.name, accJoin listSep p.emails, accJoin listSep p.phones,
    p.organization, p.birthday.getD []]

def listContactsOutput (people : List ASContact) : JStr :=
  accJoin recSep (people.map contactLine)

def searchContactsOutput (query : JStr) (people : List ASContact) : JStr :=
  accJoin recSep ((people.filter (searchContactsMatch query)).map contactLine)

def getContactOutput (people : List ASContact) (contactName : JStr) : JStr :=
  match people.find? (getContactMatch contactName) with
  | some p => contactLine p
  | none => lit "Contact not found: " ++ contactName

def deleteContactOutput (people : List ASContact) (contactName : JStr) : JStr :=
  match people.find? (deleteContactMatch contactName) with
  | some _ => lit "Contact deleted: " ++ contactName
  | none => lit "Contact not found: " ++ contactName

/-! ## End-to-end pipelines (script output through executor and decode) -/

def getContactFull (people : List ASContact) (contactName : JStr) : Option Contact :=
  getContactResult (executeAppleScript (.success (getContactOutput people contactName) []))

def getEventDetailsFull (dateToStr : Int → JStr) (events : List ASEvent)
    (calendarName eventTitle : JStr) : Option EventDetail :=
  getEventDetailsResult
    (executeAppleScript (.success (getEventDetailsOutput dateToStr events calendarName eventTitle) []))

def getNoteContentFull (notes : List ASNote) (noteTitle : JStr) : Option JStr :=
  executeAppleScript (.success (getNoteContentOutput notes noteTitle) [])

/-! ## Substring lemmas for the match predicates -/

theorem infixB_of_isPrefixOf {n s : JStr} (h : n.isPrefixOf s = true) :
    infixB n s = true := by
  cases s with
  | nil =>
    cases n with
    | nil => rfl
    | cons a as => simp [List.isPrefixOf] at h
  | cons x xs => simp [infixB, h]

theorem infixB_append_right {n : JStr} (a : JStr) {b : JStr} (h : infixB n b = true) :
    infixB n (a ++ b) = true := by
  induction a with
  | nil => simpa using h
  | cons x xs ih => simp [infixB, ih]

theorem infixB_append_self (a n b : JStr) : infixB n (a ++ (n ++ b)) = true :=
  infixB_append_right a (infixB_of_isPrefixOf (isPrefixOf_append_self n b))

theorem asEq_length {a b : JStr} (h : asEq a b = true) : a.length = b.length := by
  have heq : lcStr a = lcStr b := by simpa [asEq] using h
  have := congrArg List.length heq
  simpa [lcStr] using this

/-- Claim C4: every get/delete/edit selection is full-string equality of the
identifying field (under AppleScript's default case-insensitive text rules),
never substring containment, while every search filter is substring
containment over its text fields with OR semantics; proper containment is
rejected by the exact operations and accepted by search, and the sample
conjuncts exercise the default case-insensitive behavior. -/
theorem claim_C4_match_modes :
    (∀ t (e : ASEvent), deleteEventMatch t e = true ↔ lcStr e.summary = lcStr t) ∧
    (∀ t (e : ASEvent), getEventDetailsMatch t e = true ↔ lcStr e.summary = lcStr t) ∧
    (∀ nm (p : ASContact), getContactMatch nm p = true ↔ lcStr p.name = lcStr nm) ∧
    (∀ nm (p : ASContact), deleteContactMatch nm p = true ↔ lcStr p.name = lcStr nm) ∧
    (∀ t (n : ASNote), getNoteContentMatch t n = true ↔ lcStr n.name = lcStr t) ∧
    (∀ t (n : ASNote), editNoteMatch t n = true ↔ lcStr n.name = lcStr t) ∧
    (∀ q (e : ASEvent), searchEventsMatch q e = true ↔
      (asContainsB e.summary q = true ∨ asContainsB e.description q = true)) ∧
    (∀ q (n : ASNote), searchNotesMatch q n = true ↔
      (asContainsB n.name q = true ∨ asContainsB n.body q = true)) ∧
    (∀ q (p : ASContact), searchContactsMatch q p = true ↔
      (asContainsB p.name q = true ∨ asContainsB p.organization q = true)) ∧
    (∀ t (e : ASEvent), e.summary.length ≠ t.length → deleteEventMatch t e = false) ∧
    (∀ nm (p : ASContact), p.name.length ≠ nm.length → getContactMatch nm p = false) ∧
    (∀ q pre suf (e : ASEvent), e.summary = pre ++ (q ++ suf) →
      searchEventsMatch q e = true) ∧
    deleteEventMatch (lit "STANDUP") ⟨lit "Standup", 0, 0, [], [], []⟩ = true ∧
    deleteEventMatch (lit "Stand") ⟨lit "Standup", 0, 0, [], [], []⟩ = false ∧
    searchEventsMatch (lit "stand") ⟨lit "Standup", 0, 0, [], [], []⟩ = true := by
  refine ⟨?_, ?_, ?_, ?_, ?_, ?_, ?_, ?_, ?_, ?_, ?_, ?_, ?_, ?_, ?_⟩
  · intro t e; simp [deleteEventMatch, asEq]
  · intro t e; simp [getEventDetailsMatch, asEq]
  · intro nm p; simp [getContactMatch, asEq]
  · intro nm p; simp [deleteContactMatch, asEq]
  · intro t n; simp [getNoteContentMatch, asEq]
  · intro t n; simp [editNoteMatch, asEq]
  · intro q e; simp [searchEventsMatch]
  · intro q n; simp [searchNotesMatch]
  · intro q p; simp [searchContactsMatch]
  · intro t e hlen
    cases hb : deleteEventMatch t e with
    | false => rfl
    | true => exact absurd (asEq_length hb) hlen
  · intro nm p hlen
    cases hb : getContactMatch nm p with
    | false => rfl
    | true => exact absurd (asEq_length hb) hlen
  · intro q pre suf e hsum
    have : asContainsB e.summary q = true := by
      rw [hsum]
      show infixB (lcStr q) (lcStr (pre ++ (q ++ suf))) = true
      rw [show lcStr (pre ++ (q ++ suf)) = lcStr pre ++ (lcStr q ++ lcStr suf) by
        simp [lcStr]]
      exact infixB_append_self _ _ _
    simp [searchEventsMatch, this]
  · decide
  · decide
  · decide

/-- Witness for `claim_C4_match_modes` at concrete inputs. -/
theorem claim_C4_match_modes_witness :
    deleteEventMatch (lit "Standup") ⟨lit "Standup meeting", 0, 0, [], [], []⟩ = false ∧
    searchEventsMatch (lit "Standup") ⟨lit "Standup meeting", 0, 0, [], [], []⟩ = true :=
  ⟨(claim_C4_match_modes.2.2.2.2.2.2.2.2.2.1) (lit "Standup")
      ⟨lit "Standup meeting", 0, 0, [], [], []⟩ (by decide),
    (claim_C4_match_modes.2.2.2.2.2.2.2.2.2.2.2.1) (lit "Standup") []
      (lit " meeting") ⟨lit "Standup meeting", 0, 0, [], [], []⟩ (by decide)⟩

/-- Claim C5: the lookahead defaults are 7 days for listing and 90 for
search, and the generated `whose` filter keeps exactly the events whose
start date lies in `[now, now + N days]`, inclusive at both ends — the
boundary event is kept and one second past it is dropped. -/
theorem claim_C5_time_window :
    listEventsDefaultDays = 7 ∧ searchEventsDefaultDays = 90 ∧ secondsPerDay = 86400 ∧
    (∀ dts now events cal, listEventsOutputDefault dts now events cal =
      listEventsOutput dts now events cal 7) ∧
    (∀ dts now events q cal, searchEventsOutputDefault dts now events q cal =
      searchEventsOutput dts now events q cal 90) ∧
    (∀ now days events (e : ASEvent), e ∈ filterWindow now days events ↔
      (e ∈ events ∧ now ≤ e.startDate ∧ e.startDate ≤ now + days * secondsPerDay)) ∧
    (∀ now days events (e : ASEvent), 0 ≤ days → e ∈ events →
      e.startDate = now + days * secondsPerDay → e ∈ filterWindow now days events) ∧
    (∀ now days events (e : ASEvent), e.startDate = now + days * secondsPerDay + 1 →
      e ∉ filterWindow now days events) := by
  have hmem : ∀ now days events (e : ASEvent), e ∈ filterWindow now days events ↔
      (e ∈ events ∧ now ≤ e.startDate ∧ e.startDate ≤ now + days * secondsPerDay) := by
    intro now days events e
    simp [filterWindow, inWindow, List.mem_filter, and_assoc]
  refine ⟨rfl, rfl, rfl, fun _ _ _ _ => rfl, fun _ _ _ _ _ => rfl, hmem, ?_, ?_⟩
  · intro now days events e hd he hstart
    refine (hmem now days events e).mpr ⟨he, ?_, le_of_eq hstart⟩
    have : 0 ≤ days * secondsPerDay := by
      have : (0 : Int) ≤ 86400 := by norm_num
      simpa [secondsPerDay] using mul_nonneg hd this
    omega
  · intro now days events e hstart hmem2
    have h := ((hmem now days events e).mp hmem2).2.2
    omega

/-- Witness for `claim_C5_time_window` at concrete inputs. -/
theorem claim_C5_time_window_witness :
    (⟨lit "b", 86400, 86400, [], [], []⟩ : ASEvent) ∈
      filterWindow 0 1 [⟨lit "b", 86400, 86400, [], [], []⟩] ∧
    (⟨lit "c", 86401, 86401, [], [], []⟩ : ASEvent) ∉
      filterWindow 0 1 [⟨lit "c", 86401, 86401, [], [], []⟩] :=
  ⟨claim_C5_time_window.2.2.2.2.2.2.1 0 1 [⟨lit "b", 86400, 86400, [], [], []⟩]
      ⟨lit "b", 86400, 86400, [], [], []⟩ (by decide) (by decide) (by decide),
    claim_C5_time_window.2.2.2.2.2.2.2 0 1 [⟨lit "c", 86401, 86401, [], [], []⟩]
      ⟨lit "c", 86401, 86401, [], [], []⟩ (by decide)⟩

/-- Claim C8: decoding a chunk with fewer delimiter-separated parts than the
expected field count never raises — every decode function below is total —
and silently yields a partial record: each field position beyond the parts
list is `undefined` (`none`), while the positions that exist are kept. -/
theorem claim_C8_malformed_tolerance :
    (∀ parts : List JStr,
      (parts.length ≤ 1 → (decodeEventParts parts).startDate = none) ∧
      (parts.length ≤ 2 → (decodeEventParts parts).endDate = none) ∧
      (parts.length ≤ 3 → (decodeEventParts parts).calendar = none)) ∧
    (∀ parts : List JStr,
      (parts.length ≤ 2 → (decodeContactParts parts).emails = []) ∧
      (parts.length ≤ 3 → (decodeContactParts parts).phones = []) ∧
      (parts.length ≤ 4 → (decodeContactParts parts).organization = none) ∧
      (parts.length ≤ 5 → (decodeContactParts parts).birthday = none)) ∧
    (∀ parts : List JStr, parts.length ≤ 2 → (decodeNoteParts parts).body = none) ∧
    (∀ (parts : List JStr) (i : Nat) (h : i < parts.length),
      part parts i = some (parts.get ⟨i, h⟩)) ∧
    decodeEventChunk (lit "a|||b") =
      { summary := some (lit "a"), startDate := some (lit "b"),
        endDate := none, calendar := none } := by
  have hnone : ∀ (parts : List JStr) (i : Nat), parts.length ≤ i → part parts i = none := by
    intro parts i h
    simp [part, List.getElem?_eq_none h]
  refine ⟨?_, ?_, ?_, ?_, ?_⟩
  · intro parts
    exact ⟨fun h => by simp [decodeEventParts, hnone parts 1 h],
      fun h => by simp [decodeEventParts, hnone parts 2 h],
      fun h => by simp [decodeEventParts, hnone parts 3 h]⟩
  · intro parts
    refine ⟨fun h => ?_, fun h => ?_, fun h => ?_, fun h => ?_⟩
    · simp [decodeContactParts, hnone parts 2 h, splitListField]
    · simp [decodeContactParts, hnone parts 3 h, splitListField]
    · simp [decodeContactParts, hnone parts 4 h, orUndefined]
    · simp [decodeContactParts, hnone parts 5 h, orUndefined]
  · intro parts h
    simp [decodeNoteParts, hnone parts 2 h]
  · intro parts i h
    simp [part, List.getElem?_eq_getElem h]
  · decide

/-- Witness for `claim_C8_malformed_tolerance` at a two-part chunk. -/
theorem claim_C8_malformed_tolerance_witness :
    (decodeEventParts [lit "a", lit "b"]).endDate = none ∧
    (decodeContactParts [lit "id", lit "nm"]).organization = none :=
  ⟨(claim_C8_malformed_tolerance.1 [lit "a", lit "b"]).2.1 (by decide),
    (claim_C8_malformed_tolerance.2.1 [lit "id", lit "nm"]).2.2.1 (by decide)⟩

/-! ## Trim lemmas for the sentinel strings -/

theorem dropWhile_ne_nil_of_witness (p : Char → Bool) (l : JStr) (c : Char)
    (hc : c ∈ l) (hpc : p c = false) : l.dropWhile p ≠ [] := by
  induction l with
  | nil => simp at hc
  | cons x xs ih =>
    rw [List.dropWhile_cons]
    cases hx : p x with
    | true =>
      simp only [if_true]
      have hcx : c ∈ xs := by
        rcases List.mem_cons.mp hc with rfl | h
        · rw [hx] at hpc; exact absurd hpc (by simp)
        · exact h
      exact ih hcx
    | false => simp

theorem dropWhile_append_of_ne_nil (p : Char → Bool) (u v : JStr)
    (h : u.dropWhile p ≠ []) : (u ++ v).dropWhile p = u.dropWhile p ++ v := by
  induction u with
  | nil => exact absurd rfl h
  | cons x xs ih =>
    rw [List.cons_append, List.dropWhile_cons, List.dropWhile_cons]
    cases hx : p x with
    | true =>
      simp only [if_true]
      rw [List.dropWhile_cons, hx] at h
      exact ih (by simpa using h)
    | false => simp

/-- Right-trimming drops nothing from a left part followed by a part holding
some non-whitespace character. -/
theorem jsTrim_keeps_left (a b : JStr) (c : Char) (hc : c ∈ b) (hw : isWhite c = false)
    (hhead : ∃ d rest, a = d :: rest ∧ isWhite d = false) :
    jsTrim (a ++ b) = a ++ ((b.reverse.dropWhile isWhite).reverse) := by
  rcases hhead with ⟨d, rest, rfl, hd⟩
  have hleft : ((d :: rest) ++ b).dropWhile isWhite = (d :: rest) ++ b := by
    rw [List.cons_append, List.dropWhile_cons, hd]
    simp
  rw [jsTrim, hleft, List.reverse_append]
  have hrev : c ∈ b.reverse := List.mem_reverse.mpr hc
  rw [dropWhile_append_of_ne_nil isWhite b.reverse ((d :: rest).reverse)
    (dropWhile_ne_nil_of_witness isWhite b.reverse c hrev hw)]
  rw [List.reverse_append, List.reverse_reverse]

theorem getContact_sentinel_trimmed (nm : JStr) :
    infixB (lit "Contact not found") (jsTrim (lit "Contact not found: " ++ nm)) = true := by
  have hsplit : lit "Contact not found: " ++ nm =
      lit "Contact not found" ++ (lit ": " ++ nm) := by
    rw [show lit "Contact not found: " = lit "Contact not found" ++ lit ": " by decide,
      List.append_assoc]
  have hkeep := jsTrim_keeps_left (lit "Contact not found") (lit ": " ++ nm) ':'
    (by simp [lit]) (by decide) ⟨'C', lit "ontact not found", by decide, by decide⟩
  rw [hsplit, hkeep]
  exact infixB_of_isPrefixOf (isPrefixOf_append_self _ _)

/-- Claim C7: on a get by exact title/name with no matching item, the
contacts and calendar adapters return `null` — distinguishable from any
success — while `getNoteContent` returns the sentinel text
`"Note not found: <title>"` as an ordinary string result, indistinguishable
from a real note body (the final conjunct exhibits a real body equal to a
not-found result). -/
theorem claim_C7_not_found :
    (∀ people nm, (∀ p ∈ people, getContactMatch nm p = false) →
      getContactFull people nm = none) ∧
    (∀ dts events cal t, (∀ e ∈ events, getEventDetailsMatch t e = false) →
      getEventDetailsFull dts events cal t = none) ∧
    (∀ notes nt, (∀ n ∈ notes, getNoteContentMatch nt n = false) →
      jsTrim (lit "Note not found: " ++ nt) = lit "Note not found: " ++ nt →
      getNoteContentFull notes nt = some (lit "Note not found: " ++ nt)) ∧
    getNoteContentFull [⟨lit "7", lit "Todo", lit "Note not found: Todo"⟩] (lit "Todo") =
      getNoteContentFull [] (lit "Todo") := by
  refine ⟨?_, ?_, ?_, by decide⟩
  · intro people nm h
    have hf : people.find? (getContactMatch nm) = none :=
      List.find?_eq_none.mpr (fun p hp => by simp [h p hp])
    have hout : getContactOutput people nm = lit "Contact not found: " ++ nm := by
      rw [getContactOutput, hf]
    show getContactResult (some (jsTrim (getContactOutput people nm))) = none
    rw [hout]
    simp [getContactResult, getContact_sentinel_trimmed nm]
  · intro dts events cal t h
    have hf : events.find? (getEventDetailsMatch t) = none :=
      List.find?_eq_none.mpr (fun e he => by simp [h e he])
    have hout : getEventDetailsOutput dts events cal t = [] := by
      rw [getEventDetailsOutput, hf]
    show getEventDetailsResult (some (jsTrim (getEventDetailsOutput dts events cal t))) = none
    rw [hout]
    rfl
  · intro notes nt h htrim
    have hf : notes.find? (getNoteContentMatch nt) = none :=
      List.find?_eq_none.mpr (fun n hn => by simp [h n hn])
    have hout : getNoteContentOutput notes nt = lit "Note not found: " ++ nt := by
      rw [getNoteContentOutput, hf]
    show some (jsTrim (getNoteContentOutput notes nt)) = _
    rw [hout, htrim]

/-- Witness for `claim_C7_not_found` on empty external states. -/
theorem claim_C7_not_found_witness :
    getContactFull [] (lit "Ann") = none ∧
    getEventDetailsFull (fun _ => []) [] (lit "Work") (lit "Planning") = none ∧
    getNoteContentFull [] (lit "Memo") = some (lit "Note not found: Memo") :=
  ⟨claim_C7_not_found.1 [] (lit "Ann") (by simp),
    claim_C7_not_found.2.1 (fun _ => []) [] (lit "Work") (lit "Planning") (by simp),
    claim_C7_not_found.2.2.1 [] (lit "Memo") (by simp) (by decide)⟩

/-- External Contacts state after `createContact("Jane Doe")` with every
optional field absent: the generated script sets only the name, so the
person has no organization text and no birth date. -/
def janeContact : ASContact :=
  { id := lit "person-1", name := lit "Jane Doe", emails := [], phones := [],
    organization := [], birthday := none }

/-- Claim C9: the decode maps an empty organization or birthday field to
`undefined` (`none`), so fetching a contact created without an organization
returns a record whose organization is absent — not the empty string and not
the literal text `"undefined"`. -/
theorem claim_C9_optional_decode :
    (∀ parts : List JStr, part parts 4 = some [] →
      (decodeContactParts parts).organization = none) ∧
    (∀ parts : List JStr, part parts 5 = some [] →
      (decodeContactParts parts).birthday = none) ∧
    getContactFull [janeContact] (lit "Jane Doe") =
      some (⟨some (lit "person-1"), some (lit "Jane Doe"), [], [], none, none⟩ : Contact) ∧
    (getContactFull [janeContact] (lit "Jane Doe")).map Contact.organization ≠
      some (some (lit "undefined")) := by
  refine ⟨?_, ?_, by decide, by decide⟩
  · intro parts h
    simp [decodeContactParts, h, orUndefined]
  · intro parts h
    simp [decodeContactParts, h, orUndefined]

/-- Witness for `claim_C9_optional_decode` at a concrete parts list. -/
theorem claim_C9_optional_decode_witness :
    (decodeContactParts [lit "i", lit "n", [], [], [], []]).organization = none :=
  claim_C9_optional_decode.1 [lit "i", lit "n", [], [], [], []] (by decide)

/-- A genuinely matched contact whose organization text contains the
sentinel substring. -/
def bobContact : ASContact :=
  { id := lit "person-2", name := lit "Bob", emails := [], phones := [],
    organization := lit "Contact not found Dept", birthday := none }

/-- Claim C10: `getContact` returns `null` whenever the script output
contains the substring `"Contact not found"` anywhere, so a matched contact
whose field content holds that substring is reported as not found, and
`null` conflates process failure, no exact-name match, and this collision. -/
theorem claim_C10_sentinel_conflation :
    (∀ s : JStr, infixB (lit "Contact not found") s = true →
      getContactResult (some s) = none) ∧
    (∀ msg, getContactRun (.failure msg) = none) ∧
    (∀ people nm, people.find? (getContactMatch nm) = none →
      getContactFull people nm = none) ∧
    getContactFull [bobContact] (lit "Bob") = none ∧
    List.find? (getContactMatch (lit "Bob")) [bobContact] = some bobContact := by
  refine ⟨?_, fun msg => rfl, ?_, by decide, by decide⟩
  · intro s h
    simp [getContactResult, h]
  · intro people nm hf
    have hout : getContactOutput people nm = lit "Contact not found: " ++ nm := by
      rw [getContactOutput, hf]
    show getContactResult (some (jsTrim (getContactOutput people nm))) = none
    rw [hout]
    simp [getContactResult, getContact_sentinel_trimmed nm]

/-- Witness for `claim_C10_sentinel_conflation` at a concrete output. -/
theorem claim_C10_sentinel_conflation_witness :
    getContactResult (some (lit "x|||Contact not found y|||a|||b|||c|||d")) = none ∧
    getContactFull [] (lit "Zoe") = none :=
  ⟨claim_C10_sentinel_conflation.1 (lit "x|||Contact not found y|||a|||b|||c|||d") (by decide),
    claim_C10_sentinel_conflation.2.2.1 [] (lit "Zoe") (by decide)⟩

/-! ## Script builders of the create operations

The templates are reproduced as concatenations; `\x7b`/`\x7d` denote the
literal braces of the AppleScript property records.  `tsOpt` models the
template's `${value ? clause : ""}` conditional (JavaScript truthiness:
`undefined` and the empty string both drop the clause). -/

/-- The template conditional `${v ? f(v) : ""}`. -/
def tsOpt (v : Option JStr) (f : JStr → JStr) : JStr :=
  match v with
  | some s => if s.isEmpty then [] else f s
  | none => []

/-- The clause `, organization:"${organization}"`. -/
def orgClause (o : JStr) : JStr := lit ", organization:\"" ++ (o ++ lit "\"")

/-- The clause `make new email at end of emails of newPerson with properties {value:"${email}"}`. -/
def emailClause (v : JStr) : JStr :=
  lit "make new email at end of emails of newPerson with properties \x7bvalue:\"" ++
    (v ++ lit "\"\x7d")

/-- The clause `make new phone at end of phones of newPerson with properties {value:"${phone}"}`. -/
def phoneClause (v : JStr) : JStr :=
  lit "make new phone at end of phones of newPerson with properties \x7bvalue:\"" ++
    (v ++ lit "\"\x7d")

/-- The clause `set birth date of newPerson to date "${birthday}"`. -/
def bdayClause (v : JStr) : JStr :=
  lit "set birth date of newPerson to date \"" ++ (v ++ lit "\"")

/-- The `createContact` script template (association is to the right; the
produced text is the template's). -/
def createContactScript (name : JStr) (email phone organization birthday : Option JStr) : JStr :=
  lit "\n      tell application \"Contacts\"\n        set newPerson to make new person with properties \x7bname:\"" ++
    (name ++
    (lit "\"" ++
    (tsOpt organization orgClause ++
    (lit "\x7d\n        " ++
    (tsOpt email emailClause ++
    (lit "\n        " ++
    (tsOpt phone phoneClause ++
    (lit "\n        " ++
    (tsOpt birthday bdayClause ++
    (lit "\n        save\n        return \"Contact created: " ++
    (name ++
    lit "\"\n      end tell\n    ")))))))))))

/-- The `createEvent` script template; the `description` parameter defaults
to the empty string, so an absent description still produces a
`description:""` property. -/
def createEventScript (calendarName title startDate endDate description : JStr) : JStr :=
  lit "\n      tell application \"Calendar\"\n        tell calendar \"" ++
    (calendarName ++
    (lit "\"\n          set newEvent to make new event with properties \x7bsummary:\"" ++
    (title ++
    (lit "\", start date:date \"" ++
    (startDate ++
    (lit "\", end date:date \"" ++
    (endDate ++
    (lit "\", description:\"" ++
    (description ++
    (lit "\"\x7d\n          return \"Event created: " ++
    (title ++
    lit "\"\n        end tell\n      end tell\n    ")))))))))))

set_option maxRecDepth 8192 in
example : createContactScript (lit "Jane") none none none none =
    lit "\n      tell application \"Contacts\"\n        set newPerson to make new person with properties \x7bname:\"Jane\"\x7d\n        \n        \n        \n        save\n        return \"Contact created: Jane\"\n      end tell\n    " := by
  decide

/-! ## Occurrence analysis over concatenations -/

theorem isPrefixOf_iff {l m : JStr} : l.isPrefixOf m = true ↔ l <+: m := by
  induction l generalizing m with
  | nil => simp [List.isPrefixOf, List.nil_prefix]
  | cons a as ih =>
    cases m with
    | nil => simp [List.isPrefixOf]
    | cons b bs =>
      show (a == b && as.isPrefixOf bs) = true ↔ _
      rw [Bool.and_eq_true, beq_iff_eq, ih, List.cons_prefix_cons]

theorem prefixOf_append_cases {n u v : JStr} (h : n <+: u ++ v) :
    n <+: u ∨ ∃ w, n = u ++ w ∧ w <+: v := by
  induction u generalizing n with
  | nil => exact Or.inr ⟨n, by simp, by simpa using h⟩
  | cons y ys ih =>
    cases n with
    | nil => exact Or.inl (List.nil_prefix)
    | cons m ms =>
      rw [List.cons_append, List.cons_prefix_cons] at h
      obtain ⟨rfl, hms⟩ := h
      rcases ih hms with h1 | ⟨w, hw, hwv⟩
      · exact Or.inl (List.cons_prefix_cons.mpr ⟨rfl, h1⟩)
      · exact Or.inr ⟨w, by rw [hw, List.cons_append], hwv⟩

theorem infixB_append_cases (n a b : JStr) (h : infixB n (a ++ b) = true) :
    infixB n a = true ∨ infixB n b = true ∨
      ∃ k, k < n.length ∧ 0 < k ∧ (n.take k) <:+ a ∧ (n.drop k) <+: b := by
  induction a with
  | nil => exact Or.inr (Or.inl (by simpa using h))
  | cons x xs ih =>
    rw [List.cons_append] at h
    have hsplit : n <+: x :: (xs ++ b) ∨ infixB n (xs ++ b) = true := by
      simpa [infixB] using h
    rcases hsplit with hp | hrest
    · have hpre : n <+: (x :: xs) ++ b := by
        rw [List.cons_append]
        exact hp
      rcases prefixOf_append_cases hpre with h1 | ⟨w, hnw, hwb⟩
      · refine Or.inl ?_
        simp only [infixB]
        rw [isPrefixOf_iff.mpr h1]
        rfl
      · cases w with
        | nil =>
          have hx : n = x :: xs := by simpa using hnw
          refine Or.inl ?_
          simp only [infixB]
          rw [isPrefixOf_iff.mpr (by rw [hx] : n <+: x :: xs)]
          rfl
        | cons w0 ws =>
          refine Or.inr (Or.inr ⟨(x :: xs).length, ?_, by simp, ?_, ?_⟩)
          · rw [hnw]
            simp
          · rw [hnw, List.take_left]
          · rw [hnw, List.drop_left]
            exact hwb
    · rcases ih hrest with h1 | h2 | ⟨k, hk, hk0, hs, hp⟩
      · refine Or.inl ?_
        simp only [infixB, h1]
        rw [Bool.or_true]
      · exact Or.inr (Or.inl h2)
      · rcases hs with ⟨t, ht⟩
        exact Or.inr (Or.inr ⟨k, hk, hk0, ⟨x :: t, by rw [← ht]; rfl⟩, hp⟩)

/-- Side condition for appending to the right of a concrete text: the token
does not occur in it and no nonempty proper token prefix is one of its
suffixes. -/
def sideOK (tok a : JStr) : Prop :=
  infixB tok a = false ∧ ∀ k, k < tok.length → 0 < k → ¬ ((tok.take k) <:+ a)

instance (tok a : JStr) : Decidable (sideOK tok a) := by
  unfold sideOK
  infer_instance

theorem infixB_append_false_of_left (n a b : JStr) (ha : sideOK n a)
    (hb : infixB n b = false) : infixB n (a ++ b) = false := by
  cases h : infixB n (a ++ b) with
  | false => rfl
  | true =>
    rcases infixB_append_cases n a b h with h1 | h2 | ⟨k, hk, hk0, hs, _⟩
    · rw [ha.1] at h1; exact absurd h1 (by simp)
    · rw [hb] at h2; exact absurd h2 (by simp)
    · exact absurd hs (ha.2 k hk hk0)

theorem infixB_append_false_of_quote (n a : JStr) (ch : Char) (rest : JStr)
    (ha : infixB n a = false) (hb : infixB n (ch :: rest) = false)
    (hch : ch ∉ n) : infixB n (a ++ (ch :: rest)) = false := by
  cases h : infixB n (a ++ (ch :: rest)) with
  | false => rfl
  | true =>
    rcases infixB_append_cases n a (ch :: rest) h with h1 | h2 | ⟨k, hk, _, _, hp⟩
    · rw [ha] at h1; exact absurd h1 (by simp)
    · rw [hb] at h2; exact absurd h2 (by simp)
    · have hne : n.drop k ≠ [] := by
        intro hnil
        have := congrArg List.length hnil
        simp at this
        omega
      cases hd : n.drop k with
      | nil => exact (hne hd).elim
      | cons m ms =>
        rw [hd] at hp
        have hm : m = ch := (List.cons_prefix_cons.mp hp).1
        have hmem : m ∈ n := List.mem_of_mem_drop (by rw [hd]; simp)
        exact (hch (hm ▸ hmem)).elim

theorem infixB_cons_false (tok : JStr) (ch : Char) (rest : JStr) (hch : ch ∉ tok)
    (htok : tok ≠ []) (hrest : infixB tok rest = false) :
    infixB tok (ch :: rest) = false := by
  cases tok with
  | nil => exact absurd rfl htok
  | cons t ts =>
    show (List.isPrefixOf (t :: ts) (ch :: rest) || infixB (t :: ts) rest) = false
    rw [hrest]
    have hne : ch ≠ t := fun h => hch (h ▸ List.mem_cons_self t ts)
    rw [isPrefixOf_ne_head ts rest hne]
    rfl

theorem lit_cons1 : lit "\x7d\n        " = '\x7d' :: lit "\n        " := rfl

theorem lit_cons2 : lit "\n        " = '\n' :: lit "        " := rfl

theorem lit_cons3 : lit "\n        save\n        return \"Contact created: " =
    '\n' :: lit "        save\n        return \"Contact created: " := rfl

theorem lit_cons4 : lit "\"\n      end tell\n    " = '"' :: lit "\n      end tell\n    " := rfl

theorem lit_cons5 : lit "\"" = ['"'] := rfl

theorem tsOpt_clause_noInfix (tok A B : JStr) (v : Option JStr) (f : JStr → JStr)
    (hf : ∀ s, f s = A ++ (s ++ B))
    (hv : ∀ s, v = some s → infixB tok s = false)
    (htok : tok ≠ [])
    (hA : sideOK tok A)
    (hB : infixB tok B = false)
    (hBq : ∃ r, B = '"' :: r)
    (hq : '"' ∉ tok) :
    infixB tok (tsOpt v f) = false := by
  have hnil : infixB tok [] = false := by
    cases tok with
    | nil => exact absurd rfl htok
    | cons t ts => rfl
  cases v with
  | none => exact hnil
  | some s =>
    show infixB tok (if s.isEmpty then [] else f s) = false
    cases hs : s.isEmpty with
    | true => simpa [hs] using hnil
    | false =>
      rw [if_neg (by simp [hs]), hf s]
      rcases hBq with ⟨r, rfl⟩
      exact infixB_append_false_of_left tok A (s ++ ('"' :: r)) hA
        (infixB_append_false_of_quote tok s '"' r (hv s rfl) hB hq)

theorem tsOpt_orgClause_noInfix (tok : JStr) (v : Option JStr)
    (hv : ∀ s, v = some s → infixB tok s = false) (htok : tok ≠ [])
    (hA : sideOK tok (lit ", organization:\"")) (hB : infixB tok (lit "\"") = false)
    (hq : '"' ∉ tok) : infixB tok (tsOpt v orgClause) = false :=
  tsOpt_clause_noInfix tok _ _ v orgClause (fun _ => rfl) hv htok hA hB ⟨[], rfl⟩ hq

theorem tsOpt_emailClause_noInfix (tok : JStr) (v : Option JStr)
    (hv : ∀ s, v = some s → infixB tok s = false) (htok : tok ≠ [])
    (hA : sideOK tok
      (lit "make new email at end of emails of newPerson with properties \x7bvalue:\""))
    (hB : infixB tok (lit "\"\x7d") = false)
    (hq : '"' ∉ tok) : infixB tok (tsOpt v emailClause) = false :=
  tsOpt_clause_noInfix tok _ _ v emailClause (fun _ => rfl) hv htok hA hB ⟨lit "\x7d", rfl⟩ hq

theorem tsOpt_phoneClause_noInfix (tok : JStr) (v : Option JStr)
    (hv : ∀ s, v = some s → infixB tok s = false) (htok : tok ≠ [])
    (hA : sideOK tok
      (lit "make new phone at end of phones of newPerson with properties \x7bvalue:\""))
    (hB : infixB tok (lit "\"\x7d") = false)
    (hq : '"' ∉ tok) : infixB tok (tsOpt v phoneClause) = false :=
  tsOpt_clause_noInfix tok _ _ v phoneClause (fun _ => rfl) hv htok hA hB ⟨lit "\x7d", rfl⟩ hq

theorem tsOpt_bdayClause_noInfix (tok : JStr) (v : Option JStr)
    (hv : ∀ s, v = some s → infixB tok s = false) (htok : tok ≠ [])
    (hA : sideOK tok (lit "set birth date of newPerson to date \""))
    (hB : infixB tok (lit "\"") = false)
    (hq : '"' ∉ tok) : infixB tok (tsOpt v bdayClause) = false :=
  tsOpt_clause_noInfix tok _ _ v bdayClause (fun _ => rfl) hv htok hA hB ⟨[], rfl⟩ hq

/-- No occurrence of a token in the whole `createContact` script, given that
it does not occur in the name, in the optional clause parts, or in any fixed
segment, and that it contains no quote, closing brace or newline (every
interpolated value is flanked by one of those characters). -/
theorem createContactScript_noInfix (tok name : JStr)
    (email phone organization birthday : Option JStr)
    (htok : tok ≠ []) (hq : '"' ∉ tok) (hbr : '\x7d' ∉ tok) (hnl : '\n' ∉ tok)
    (hname : infixB tok name = false)
    (hO : infixB tok (tsOpt organization orgClause) = false)
    (hE : infixB tok (tsOpt email emailClause) = false)
    (hP : infixB tok (tsOpt phone phoneClause) = false)
    (hD : infixB tok (tsOpt birthday bdayClause) = false)
    (hL1 : sideOK tok (lit "\n      tell application \"Contacts\"\n        set newPerson to make new person with properties \x7bname:\""))
    (hLs : sideOK tok (lit "        "))
    (hLsave : sideOK tok (lit "        save\n        return \"Contact created: "))
    (hLend : infixB tok (lit "\n      end tell\n    ") = false) :
    infixB tok (createContactScript name email phone organization birthday) = false := by
  simp only [createContactScript, lit_cons1, lit_cons2, lit_cons3, lit_cons4, lit_cons5,
    List.cons_append, List.nil_append]
  refine infixB_append_false_of_left _ _ _ hL1 ?_
  refine infixB_append_false_of_quote _ _ '"' _ hname ?_ hq
  refine infixB_cons_false _ '"' _ hq htok ?_
  refine infixB_append_false_of_quote _ _ '\x7d' _ hO ?_ hbr
  refine infixB_cons_false _ '\x7d' _ hbr htok ?_
  refine infixB_cons_false _ '\n' _ hnl htok ?_
  refine infixB_append_false_of_left _ _ _ hLs ?_
  refine infixB_append_false_of_quote _ _ '\n' _ hE ?_ hnl
  refine infixB_cons_false _ '\n' _ hnl htok ?_
  refine infixB_append_false_of_left _ _ _ hLs ?_
  refine infixB_append_false_of_quote _ _ '\n' _ hP ?_ hnl
  refine infixB_cons_false _ '\n' _ hnl htok ?_
  refine infixB_append_false_of_left _ _ _ hLs ?_
  refine infixB_append_false_of_quote _ _ '\n' _ hD ?_ hnl
  refine infixB_cons_false _ '\n' _ hnl htok ?_
  refine infixB_append_false_of_left _ _ _ hLsave ?_
  refine infixB_append_false_of_quote _ _ '"' _ hname ?_ hq
  refine infixB_cons_false _ '"' _ hq htok ?_
  exact hLend

/-- The four attribute tokens whose clauses the optional parameters control. -/
def C6tokens : List JStr :=
  [lit "organization", lit "make new email", lit "make new phone", lit "birth date"]

set_option maxRecDepth 16384 in
/-- Claim C6 as stated is false for `createEvent`: with the description
absent (its parameter defaults to the empty string) the generated script
still contains a clause setting the attribute, namely `description:""`. -/
theorem claim_C6_counterexample :
    infixB (lit "description:\"\"")
      (createEventScript (lit "Work") (lit "Standup") (lit "Monday, January 1, 2024")
        (lit "Tuesday, January 2, 2024") []) = true := by decide

/-- Claim C6, amended: `createContact` omits each absent optional field's
clause from the generated script entirely (no text setting that attribute
appears, provided the interpolated values do not themselves contain the
attribute tokens), while `createEvent` always includes a description clause —
when the description is absent it is set to the empty string, so the script
contains `description:""` rather than omitting the attribute. -/
theorem claim_C6_optional_clauses
    (name : JStr) (email phone organization birthday : Option JStr)
    (hname : ∀ tok ∈ C6tokens, infixB tok name = false)
    (hemail : ∀ tok ∈ C6tokens, ∀ s, email = some s → infixB tok s = false)
    (hphone : ∀ tok ∈ C6tokens, ∀ s, phone = some s → infixB tok s = false)
    (horg : ∀ tok ∈ C6tokens, ∀ s, organization = some s → infixB tok s = false)
    (hbday : ∀ tok ∈ C6tokens, ∀ s, birthday = some s → infixB tok s = false) :
    (organization = none → infixB (lit "organization")
      (createContactScript name email phone organization birthday) = false) ∧
    (email = none → infixB (lit "make new email")
      (createContactScript name email phone organization birthday) = false) ∧
    (phone = none → infixB (lit "make new phone")
      (createContactScript name email phone organization birthday) = false) ∧
    (birthday = none → infixB (lit "birth date")
      (createContactScript name email phone organization birthday) = false) ∧
    (∀ cal title sd ed, infixB (lit "description:\"\"")
      (createEventScript cal title sd ed []) = true) := by
  refine ⟨?_, ?_, ?_, ?_, ?_⟩
  · intro h1
    subst h1
    exact createContactScript_noInfix (lit "organization") name email phone none birthday
      (by decide) (by decide) (by decide) (by decide)
      (hname _ (by decide)) (by decide)
      (tsOpt_emailClause_noInfix (lit "organization") email
        (fun s hs => hemail _ (by decide) s hs)
        (by decide) (by decide) (by decide) (by decide))
      (tsOpt_phoneClause_noInfix (lit "organization") phone
        (fun s hs => hphone _ (by decide) s hs)
        (by decide) (by decide) (by decide) (by decide))
      (tsOpt_bdayClause_noInfix (lit "organization") birthday
        (fun s hs => hbday _ (by decide) s hs)
        (by decide) (by decide) (by decide) (by decide))
      (by decide) (by decide) (by decide) (by decide)
  · intro h1
    subst h1
    exact createContactScript_noInfix (lit "make new email") name none phone organization birthday
      (by decide) (by decide) (by decide) (by decide)
      (hname _ (by decide))
      (tsOpt_orgClause_noInfix (lit "make new email") organization
        (fun s hs => horg _ (by decide) s hs)
        (by decide) (by decide) (by decide) (by decide))
      (by decide)
      (tsOpt_phoneClause_noInfix (lit "make new email") phone
        (fun s hs => hphone _ (by decide) s hs)
        (by decide) (by decide) (by decide) (by decide))
      (tsOpt_bdayClause_noInfix (lit "make new email") birthday
        (fun s hs => hbday _ (by decide) s hs)
        (by decide) (by decide) (by decide) (by decide))
      (by decide) (by decide) (by decide) (by decide)
  · intro h1
    subst h1
    exact createContactScript_noInfix (lit "make new phone") name email none organization birthday
      (by decide) (by decide) (by decide) (by decide)
      (hname _ (by decide))
      (tsOpt_orgClause_noInfix (lit "make new phone") organization
        (fun s hs => horg _ (by decide) s hs)
        (by decide) (by decide) (by decide) (by decide))
      (tsOpt_emailClause_noInfix (lit "make new phone") email
        (fun s hs => hemail _ (by decide) s hs)
        (by decide) (by decide) (by decide) (by decide))
      (by decide)
      (tsOpt_bdayClause_noInfix (lit "make new phone") birthday
        (fun s hs => hbday _ (by decide) s hs)
        (by decide) (by decide) (by decide) (by decide))
      (by decide) (by decide) (by decide) (by decide)
  · intro h1
    subst h1
    exact createContactScript_noInfix (lit "birth date") name email phone organization none
      (by decide) (by decide) (by decide) (by decide)
      (hname _ (by decide))
      (tsOpt_orgClause_noInfix (lit "birth date") organization
        (fun s hs => horg _ (by decide) s hs)
        (by decide) (by decide) (by decide) (by decide))
      (tsOpt_emailClause_noInfix (lit "birth date") email
        (fun s hs => hemail _ (by decide) s hs)
        (by decide) (by decide) (by decide) (by decide))
      (tsOpt_phoneClause_noInfix (lit "birth date") phone
        (fun s hs => hphone _ (by decide) s hs)
        (by decide) (by decide) (by decide) (by decide))
      (by decide) (by decide) (by decide) (by decide) (by decide)
  · intro cal title sd ed
    show infixB _ (lit "\n      tell application \"Calendar\"\n        tell calendar \"" ++
      (cal ++
      (lit "\"\n          set newEvent to make new event with properties \x7bsummary:\"" ++
      (title ++
      (lit "\", start date:date \"" ++
      (sd ++
      (lit "\", end date:date \"" ++
      (ed ++
      (lit "\", description:\"" ++
      ([] ++
      (lit "\"\x7d\n          return \"Event created: " ++
      (title ++
      lit "\"\n        end tell\n      end tell\n    ")))))))))))) = true
    refine infixB_append_right _ (infixB_append_right _ (infixB_append_right _
      (infixB_append_right _ (infixB_append_right _ (infixB_append_right _
      (infixB_append_right _ (infixB_append_right _ ?_)))))))
    have hkey : lit "\", description:\"" ++
        (([] : JStr) ++
        (lit "\"\x7d\n          return \"Event created: " ++
        (title ++ lit "\"\n        end tell\n      end tell\n    "))) =
        lit "\", " ++
        (lit "description:\"\"" ++
        (lit "\x7d\n          return \"Event created: " ++
        (title ++ lit "\"\n        end tell\n      end tell\n    "))) := rfl
    rw [hkey]
    exact infixB_append_right _ (infixB_of_isPrefixOf (isPrefixOf_append_self _ _))

/-- Witness for `claim_C6_optional_clauses` at concrete inputs. -/
theorem claim_C6_optional_clauses_witness :
    infixB (lit "organization")
      (createContactScript (lit "Jane Doe") none none none none) = false ∧
    infixB (lit "description:\"\"")
      (createEventScript (lit "Work") (lit "Lunch") (lit "d1") (lit "d2") []) = true :=
  ⟨(claim_C6_optional_clauses (lit "Jane Doe") none none none none (by decide)
      (fun _ _ _ hs => Option.noConfusion hs) (fun _ _ _ hs => Option.noConfusion hs)
      (fun _ _ _ hs => Option.noConfusion hs) (fun _ _ _ hs => Option.noConfusion hs)).1 rfl,
    (claim_C6_optional_clauses (lit "Jane Doe") none none none none (by decide)
      (fun _ _ _ hs => Option.noConfusion hs) (fun _ _ _ hs => Option.noConfusion hs)
      (fun _ _ _ hs => Option.noConfusion hs) (fun _ _ _ hs => Option.noConfusion hs)).2.2.2.2
      (lit "Work") (lit "Lunch") (lit "d1") (lit "d2")⟩

end AssistantBridge
